import Mathlib

/-!
Verification of the employee_manager upload/ETL collaborators.

Shallow embedding of the relevant code:
* `components/pages/file_upload.py` — the classification-and-save loop of
  `render_file_upload` (file-name → record-type classification, saving of
  recognized files, reporting of unrecognized ones);
* `components/data/database.py` — `DatabasePool.__new__`, `get_connection`
  and `get_cursor`;
* `components/utils/activity_logger.py` — `ActivityLogger.log_event`,
  `log_file_upload`, `log_file_processing` and the module-level `get_logger`;
* the Run Ledger row shape (spec §4.5 / §8), whose writer is not among the
  sources here.

Python strings become `String`, dicts become association lists with
insert-or-overwrite semantics, exceptions become `Except`, and effectful code
is threaded through explicit state records.
-/

/-! ## File classification (`render_file_upload`, file_upload.py lines 27-42) -/

/-- Holds when: `listIsPre pre l` is true when `pre` is a prefix of `l`
(character-by-character comparison). -/
def listIsPre : List Char → List Char → Bool
  | [], _ => true
  | _ :: _, [] => false
  | a :: as, b :: bs => a == b && listIsPre as bs

/-- Python's substring test `needle in hay`: `needle` occurs contiguously
somewhere in `hay` (the empty needle occurs in every string). -/
def substrIn (needle hay : List Char) : Bool :=
  match hay with
  | [] => listIsPre needle []
  | _ :: t => listIsPre needle hay || substrIn needle t

/-- Python `str.lower()` on one character (ASCII range, which covers the
configured fragments and CSV file names handled by the page). -/
def lowerChar (c : Char) : Char :=
  if 65 ≤ c.toNat ∧ c.toNat ≤ 90 then Char.ofNat (c.toNat + 32) else c

/-- Python `s.lower()`, as the lowered character list of `s`. -/
def lowerStr (s : String) : List Char := s.data.map lowerChar

/-- The match test of line 31 of file_upload.py:
`type_name.lower() in uploaded_file.name.lower()` — case-insensitive
substring containment of the configured fragment in the file name. -/
def fragMatches (frag name : String) : Bool :=
  substrIn (lowerStr frag) (lowerStr name)

/-- The inner loop of lines 29-33 of file_upload.py: walk the configured
`required_files` entries in iteration order, return the first record-type key
whose fragment matches, `none` (Python `file_type = None`) when no entry
matches.  The configuration is the list of `(type_key, type_name)` pairs in
iteration order. -/
def classifyFile (config : List (String × String)) (name : String) : Option String :=
  match config with
  | [] => none
  | (typeKey, typeName) :: rest =>
      if fragMatches typeName name then some typeKey else classifyFile rest name

theorem classifyFile_nil (name : String) : classifyFile [] name = none := rfl

theorem classifyFile_cons (typeKey typeName : String)
    (rest : List (String × String)) (name : String) :
    classifyFile ((typeKey, typeName) :: rest) name =
      if fragMatches typeName name then some typeKey else classifyFile rest name := rfl

/-- No-match characterization: classification returns `none` exactly when no
configured fragment matches. -/
theorem classifyFile_eq_none_iff (config : List (String × String)) (name : String) :
    classifyFile config name = none ↔ ∀ p ∈ config, fragMatches p.2 name = false := by
  induction config with
  | nil => simp [classifyFile]
  | cons p rest ih =>
      obtain ⟨k, frag⟩ := p
      rw [classifyFile_cons]
      by_cases h : fragMatches frag name
      · simp [h]
      · rw [if_neg h, ih]
        simp only [Bool.not_eq_true] at h
        constructor
        · intro hall q hq
          rcases List.mem_cons.mp hq with hq | hq
          · subst hq; exact h
          · exact hall q hq
        · intro hall q hq
          exact hall q (List.mem_cons_of_mem _ hq)

/-- First-match characterization: classification returns `some k` exactly when
the configuration splits as a prefix with no matching fragment, followed by an
entry with key `k` whose fragment matches. -/
theorem classifyFile_eq_some_iff (config : List (String × String)) (name : String)
    (k : String) :
    classifyFile config name = some k ↔
      ∃ pre frag post, config = pre ++ (k, frag) :: post ∧
        fragMatches frag name = true ∧
        ∀ p ∈ pre, fragMatches p.2 name = false := by
  induction config with
  | nil =>
      constructor
      · intro h; exact absurd h (by simp [classifyFile])
      · rintro ⟨pre, frag, post, h, -, -⟩
        exact absurd h (by simp)
  | cons p rest ih =>
      obtain ⟨k0, frag0⟩ := p
      rw [classifyFile_cons]
      by_cases h : fragMatches frag0 name
      · rw [if_pos h]
        constructor
        · intro hk
          have hk2 : k0 = k := by simpa using hk
          exact ⟨[], frag0, rest, by simp [hk2], h, by simp⟩
        · rintro ⟨pre, frag, post, heq, hfrag, hpre⟩
          cases pre with
          | nil =>
              simp only [List.nil_append, List.cons.injEq, Prod.mk.injEq] at heq
              rw [heq.1.1]
          | cons q pre2 =>
              simp only [List.cons_append, List.cons.injEq] at heq
              have hq0 : fragMatches (k0, frag0).2 name = false := by
                rw [← heq.1] at hpre
                exact hpre (k0, frag0) (List.mem_cons_self _ _)
              simp only at hq0
              exact absurd h (by simp [hq0])
      · rw [if_neg h, ih]
        simp only [Bool.not_eq_true] at h
        constructor
        · rintro ⟨pre, frag, post, heq, hfrag, hpre⟩
          refine ⟨(k0, frag0) :: pre, frag, post, by simp [heq], hfrag, ?_⟩
          intro q hq
          rcases List.mem_cons.mp hq with hq | hq
          · subst hq; exact h
          · exact hpre q hq
        · rintro ⟨pre, frag, post, heq, hfrag, hpre⟩
          cases pre with
          | nil =>
              simp only [List.nil_append, List.cons.injEq, Prod.mk.injEq] at heq
              rw [heq.1.2] at h
              rw [h] at hfrag
              cases hfrag
          | cons q pre2 =>
              simp only [List.cons_append, List.cons.injEq] at heq
              refine ⟨pre2, frag, post, heq.2, hfrag, ?_⟩
              intro r hr
              exact hpre r (List.mem_cons_of_mem _ hr)

/-- C1: the classifier assigns the record-type key of the first entry, in
configuration iteration order, whose configured name fragment is a
case-insensitive substring of the file name; a file name containing no
configured fragment is classified as unrecognized (`none`). -/
theorem classify_first_match_wins (config : List (String × String)) (name : String) :
    (classifyFile config name = none ↔ ∀ p ∈ config, fragMatches p.2 name = false) ∧
    (∀ k, classifyFile config name = some k ↔
      ∃ pre frag post, config = pre ++ (k, frag) :: post ∧
        fragMatches frag name = true ∧
        ∀ p ∈ pre, fragMatches p.2 name = false) :=
  ⟨classifyFile_eq_none_iff config name,
   fun k => classifyFile_eq_some_iff config name k⟩

/-- Witness for C1 at a concrete configuration and file name: with a
non-matching `department` entry before a matching `employee` entry, the file
`Employees_2024.csv` is classified as `employee`, and a file matching nothing
is unrecognized. -/
theorem classify_first_match_wins_ex :
    classifyFile [("department", "department"), ("employee", "employee")]
        "Employees_2024.csv" = some "employee" ∧
    classifyFile [("department", "department"), ("employee", "employee")]
        "notes.txt" = none := by
  constructor
  · exact ((classify_first_match_wins
        [("department", "department"), ("employee", "employee")]
        "Employees_2024.csv").2 "employee").mpr
      ⟨[("department", "department")], "employee", [], by decide, by decide, by decide⟩
  · exact (classify_first_match_wins
        [("department", "department"), ("employee", "employee")]
        "notes.txt").1.mpr (by decide)

/-! ## The upload loop (file_upload.py lines 22-42)

The loop body either saves a recognized file under
`upload_folder / f"{file_type}_{uploaded_file.name}"` and records it in
`files_dict` (Python dict assignment: insert or overwrite), or appends the
name to `unrecognized_files`.  File-system writes are tracked in `fsWrites`;
`dbWrites` tracks database writes (the loop performs none — the upload
history queries further down the page are reads). -/

/-- An uploaded file: its name and its byte content (`getbuffer()`). -/
structure UploadedFile where
  name : String
  content : List Nat
deriving DecidableEq

/-- Line 37: `app_config.upload_folder / f"{file_type}_{uploaded_file.name}"`. -/
def savePath (uploadFolder fileType name : String) : String :=
  uploadFolder ++ "/" ++ fileType ++ "_" ++ name

/-- Python dict assignment `d[k] = v`: overwrite the existing entry for `k`,
else append a new one. -/
def dictInsert (d : List (String × String)) (k v : String) : List (String × String) :=
  match d with
  | [] => [(k, v)]
  | (k1, v1) :: rest =>
      if k1 = k then (k, v) :: rest else (k1, v1) :: dictInsert rest k v

/-- Python dict lookup `d[k]`. -/
def dictLookup (k : String) : List (String × String) → Option String
  | [] => none
  | (k1, v1) :: rest => if k1 = k then some v1 else dictLookup k rest

/-- The keys of a dict, in order. -/
def dictKeys (d : List (String × String)) : List String := d.map Prod.fst

/-- The state threaded through the loop of lines 22-42. -/
structure BatchState where
  files_dict : List (String × String)
  unrecognized_files : List String
  fsWrites : List (String × List Nat)
  dbWrites : List String
deriving DecidableEq

/-- Lines 23-24: `files_dict = {}`, `unrecognized_files = []`; no writes yet. -/
def initialBatchState : BatchState := ⟨[], [], [], []⟩

/-- One iteration of the loop (lines 27-42) on one uploaded file. -/
def processUpload (config : List (String × String)) (folder : String)
    (st : BatchState) (f : UploadedFile) : BatchState :=
  match classifyFile config f.name with
  | some t =>
      let sp := savePath folder t f.name
      { st with fsWrites := st.fsWrites ++ [(sp, f.content)],
                files_dict := dictInsert st.files_dict t sp }
  | none =>
      { st with unrecognized_files := st.unrecognized_files ++ [f.name] }

/-- The whole loop over the batch of uploaded files, in upload order. -/
def processUploads (config : List (String × String)) (folder : String)
    (files : List UploadedFile) : BatchState :=
  files.foldl (processUpload config folder) initialBatchState

theorem processUploads_foldl_dbWrites (config : List (String × String))
    (folder : String) (files : List UploadedFile) :
    ∀ st : BatchState,
      (files.foldl (processUpload config folder) st).dbWrites = st.dbWrites := by
  induction files with
  | nil => intro st; rfl
  | cons f fs ih =>
      intro st
      rw [List.foldl_cons, ih]
      cases h : classifyFile config f.name <;> simp [processUpload, h]

theorem processUploads_foldl_fsWrites (config : List (String × String))
    (folder : String) (files : List UploadedFile) :
    ∀ st : BatchState,
      (files.foldl (processUpload config folder) st).fsWrites
        = st.fsWrites ++ files.filterMap (fun f => (classifyFile config f.name).map
            (fun t => (savePath folder t f.name, f.content))) := by
  induction files with
  | nil => intro st; simp
  | cons f fs ih =>
      intro st
      rw [List.foldl_cons, ih, List.filterMap_cons]
      cases h : classifyFile config f.name <;> simp [processUpload, h]

theorem processUploads_foldl_unrecognized (config : List (String × String))
    (folder : String) (files : List UploadedFile) :
    ∀ st : BatchState,
      (files.foldl (processUpload config folder) st).unrecognized_files
        = st.unrecognized_files
            ++ (files.filter (fun f => (classifyFile config f.name).isNone)).map
                 (fun f => f.name) := by
  induction files with
  | nil => intro st; simp
  | cons f fs ih =>
      intro st
      rw [List.foldl_cons, ih, List.filter_cons]
      cases h : classifyFile config f.name <;> simp [processUpload, h]

theorem dictInsert_mem (d : List (String × String)) (k v a b : String)
    (h : (a, b) ∈ dictInsert d k v) : (a, b) ∈ d ∨ (a = k ∧ b = v) := by
  induction d with
  | nil =>
      simp only [dictInsert, List.mem_singleton, Prod.mk.injEq] at h
      exact Or.inr h
  | cons p rest ih =>
      obtain ⟨k1, v1⟩ := p
      by_cases hk : k1 = k
      · rw [dictInsert, if_pos hk] at h
        rcases List.mem_cons.mp h with h | h
        · simp only [Prod.mk.injEq] at h
          exact Or.inr h
        · exact Or.inl (List.mem_cons_of_mem _ h)
      · rw [dictInsert, if_neg hk] at h
        rcases List.mem_cons.mp h with h | h
        · exact Or.inl (by simp [h])
        · rcases ih h with h2 | h2
          · exact Or.inl (List.mem_cons_of_mem _ h2)
          · exact Or.inr h2

theorem dictLookup_insert_self (d : List (String × String)) (k v : String) :
    dictLookup k (dictInsert d k v) = some v := by
  induction d with
  | nil => simp [dictInsert, dictLookup]
  | cons p rest ih =>
      obtain ⟨k1, v1⟩ := p
      by_cases hk : k1 = k
      · rw [dictInsert, if_pos hk, dictLookup, if_pos rfl]
      · rw [dictInsert, if_neg hk, dictLookup, if_neg hk, ih]

theorem dictLookup_insert_other (d : List (String × String)) (k k1 v : String)
    (h : k1 ≠ k) : dictLookup k (dictInsert d k1 v) = dictLookup k d := by
  induction d with
  | nil => simp [dictInsert, dictLookup, h]
  | cons p rest ih =>
      obtain ⟨k2, v2⟩ := p
      by_cases hk : k2 = k1
      · rw [dictInsert, if_pos hk, dictLookup, if_neg h, dictLookup, hk, if_neg h]
      · rw [dictInsert, if_neg hk, dictLookup, dictLookup]
        by_cases hk2 : k2 = k
        · rw [if_pos hk2, if_pos hk2]
        · rw [if_neg hk2, if_neg hk2, ih]

theorem dictKeys_cons (k1 v1 : String) (d : List (String × String)) :
    dictKeys ((k1, v1) :: d) = k1 :: dictKeys d := rfl

theorem dictInsert_keys (d : List (String × String)) (k v : String) :
    dictKeys (dictInsert d k v)
      = if k ∈ dictKeys d then dictKeys d else dictKeys d ++ [k] := by
  induction d with
  | nil => simp [dictInsert, dictKeys]
  | cons p rest ih =>
      obtain ⟨k1, v1⟩ := p
      by_cases hk : k1 = k
      · rw [dictInsert, if_pos hk]
        have hmem2 : k ∈ dictKeys ((k1, v1) :: rest) := by
          rw [dictKeys_cons, hk]
          exact List.mem_cons_self k _
        rw [if_pos hmem2, dictKeys_cons, dictKeys_cons, hk]
      · have hiff : (k ∈ dictKeys ((k1, v1) :: rest)) ↔ k ∈ dictKeys rest := by
          rw [dictKeys_cons, List.mem_cons]
          constructor
          · intro hm
            rcases hm with hm | hm
            · exact absurd hm.symm hk
            · exact hm
          · exact Or.inr
        rw [dictInsert, if_neg hk, dictKeys_cons, ih]
        by_cases hm : k ∈ dictKeys rest
        · rw [if_pos hm, if_pos (hiff.mpr hm), dictKeys_cons]
        · rw [if_neg hm, if_neg (fun hc => hm (hiff.mp hc)), dictKeys_cons,
            List.cons_append]

theorem dictInsert_keys_nodup (d : List (String × String)) (k v : String)
    (h : (dictKeys d).Nodup) : (dictKeys (dictInsert d k v)).Nodup := by
  rw [dictInsert_keys]
  by_cases hm : k ∈ dictKeys d
  · rwa [if_pos hm]
  · rw [if_neg hm]
    refine List.nodup_append.mpr ⟨h, List.nodup_singleton k, ?_⟩
    intro a ha hb
    rw [List.mem_singleton] at hb
    subst hb
    exact hm ha

theorem processUploads_foldl_dict_mem (config : List (String × String))
    (folder : String) (files : List UploadedFile) :
    ∀ (st : BatchState) (k v : String),
      (k, v) ∈ (files.foldl (processUpload config folder) st).files_dict →
        (k, v) ∈ st.files_dict ∨
          ∃ f, f ∈ files ∧ classifyFile config f.name = some k ∧
            v = savePath folder k f.name := by
  induction files with
  | nil => intro st k v h; exact Or.inl h
  | cons f fs ih =>
      intro st k v h
      rw [List.foldl_cons] at h
      rcases ih (processUpload config folder st f) k v h with h2 | h2
      · cases hc : classifyFile config f.name with
        | none =>
            rw [processUpload, hc] at h2
            exact Or.inl h2
        | some t =>
            rw [processUpload, hc] at h2
            rcases dictInsert_mem _ _ _ _ _ h2 with h3 | h3
            · exact Or.inl h3
            · refine Or.inr ⟨f, List.mem_cons_self f fs, ?_, ?_⟩
              · rw [hc, h3.1]
              · rw [h3.2, h3.1]
      · obtain ⟨g, hg, hcg, hvg⟩ := h2
        exact Or.inr ⟨g, List.mem_cons_of_mem f hg, hcg, hvg⟩

theorem processUploads_foldl_lookup (config : List (String × String))
    (folder : String) (k : String) (files : List UploadedFile) :
    ∀ st : BatchState,
      dictLookup k (files.foldl (processUpload config folder) st).files_dict
        = match (files.filter
            (fun f => classifyFile config f.name == some k)).getLast? with
          | some f => some (savePath folder k f.name)
          | none => dictLookup k st.files_dict := by
  induction files with
  | nil => intro st; rfl
  | cons f fs ih =>
      intro st
      rw [List.foldl_cons, ih, List.filter_cons]
      by_cases hp : classifyFile config f.name = some k
      · rw [if_pos (by simpa using hp)]
        cases hfs : fs.filter (fun f => classifyFile config f.name == some k) with
        | nil =>
            simp only [List.getLast?_singleton]
            rw [processUpload, hp, dictLookup_insert_self]
            simp
        | cons g gs =>
            rw [List.getLast?_cons_cons]
            cases hgl : (g :: gs).getLast? with
            | none =>
                have h2 := List.getLast?_isSome (l := g :: gs)
                rw [hgl] at h2
                simp at h2
            | some x => rfl
      · rw [if_neg (by simpa using hp)]
        cases hfs : fs.filter (fun f => classifyFile config f.name == some k) with
        | nil =>
            cases hc : classifyFile config f.name with
            | none => rw [processUpload, hc]
            | some t =>
                rw [processUpload, hc]
                have ht : t ≠ k := fun he => hp (by rw [hc, he])
                simp only
                rw [dictLookup_insert_other _ _ _ _ ht]
        | cons g gs => rfl

theorem processUploads_foldl_keys_nodup (config : List (String × String))
    (folder : String) (files : List UploadedFile) :
    ∀ st : BatchState, (dictKeys st.files_dict).Nodup →
      (dictKeys (files.foldl (processUpload config folder) st).files_dict).Nodup := by
  induction files with
  | nil => intro st h; exact h
  | cons f fs ih =>
      intro st h
      rw [List.foldl_cons]
      refine ih _ ?_
      cases hc : classifyFile config f.name with
      | none => rw [processUpload, hc]; exact h
      | some t =>
          rw [processUpload, hc]
          exact dictInsert_keys_nodup _ _ _ h

/-- C2 counterexample: processing a batch through the loop of lines 27-42 is
not free of file-system writes — a recognized file is saved to the upload
folder (lines 37-39), so the batch state records a write. -/
theorem upload_loop_not_fs_pure :
    ¬ ((processUploads [("employee", "employee")] "uploads"
          [⟨"employees.csv", [101, 109, 112]⟩]).fsWrites = []) := by
  decide

/-- C2 (amended): the classification decision for each file is the pure
function `classifyFile` of the file name and the configuration; the loop
performs no database writes, writes to the file system exactly the recognized
files (each saved once under its type-prefixed path), and unrecognized files
cause no writes — they are only reported back. -/
theorem upload_loop_effects (config : List (String × String)) (folder : String)
    (files : List UploadedFile) :
    (processUploads config folder files).dbWrites = [] ∧
    (processUploads config folder files).fsWrites
      = files.filterMap (fun f => (classifyFile config f.name).map
          (fun t => (savePath folder t f.name, f.content))) ∧
    (processUploads config folder files).unrecognized_files
      = (files.filter (fun f => (classifyFile config f.name).isNone)).map
          (fun f => f.name) := by
  refine ⟨?_, ?_, ?_⟩
  · exact processUploads_foldl_dbWrites config folder files initialBatchState
  · simpa [initialBatchState] using
      processUploads_foldl_fsWrites config folder files initialBatchState
  · simpa [initialBatchState] using
      processUploads_foldl_unrecognized config folder files initialBatchState

/-- Witness for C2 (amended) on a concrete batch of one recognized and one
unrecognized file: no database writes, and only the unrecognized name is
reported back. -/
theorem upload_loop_effects_ex :
    (processUploads [("employee", "employee")] "uploads"
        [⟨"employees.csv", [104]⟩, ⟨"notes.txt", [7]⟩]).dbWrites = [] ∧
    (processUploads [("employee", "employee")] "uploads"
        [⟨"employees.csv", [104]⟩, ⟨"notes.txt", [7]⟩]).unrecognized_files
      = ["notes.txt"] := by
  refine ⟨(upload_loop_effects [("employee", "employee")] "uploads"
      [⟨"employees.csv", [104]⟩, ⟨"notes.txt", [7]⟩]).1, ?_⟩
  rw [(upload_loop_effects [("employee", "employee")] "uploads"
      [⟨"employees.csv", [104]⟩, ⟨"notes.txt", [7]⟩]).2.2]
  decide

/-- C7: unrecognized files are reported separately — `unrecognized_files` is
exactly the list of names matching no configured fragment, in upload order —
and are excluded from the mapping handed to the pipeline: every entry of
`files_dict` stems from a recognized file of the batch. -/
theorem unrecognized_reported_separately (config : List (String × String))
    (folder : String) (files : List UploadedFile) :
    (processUploads config folder files).unrecognized_files
      = (files.filter (fun f => (classifyFile config f.name).isNone)).map
          (fun f => f.name) ∧
    ∀ k v, (k, v) ∈ (processUploads config folder files).files_dict →
      ∃ f, f ∈ files ∧ classifyFile config f.name = some k ∧
        v = savePath folder k f.name := by
  constructor
  · simpa [initialBatchState] using
      processUploads_foldl_unrecognized config folder files initialBatchState
  · intro k v hmem
    rcases processUploads_foldl_dict_mem config folder files initialBatchState
        k v hmem with h | h
    · exact absurd h (by simp [initialBatchState])
    · exact h

/-- Witness for C7 on a batch of 3 recognized files plus 1 unrecognized file:
the unrecognized count is 1, and a concrete entry of the pipeline mapping is
traced back to a recognized file of the batch. -/
theorem unrecognized_reported_separately_ex :
    (processUploads
        [("employee", "employee"), ("department", "department"),
         ("project", "project")] "uploads"
        [⟨"employee_list.csv", [1]⟩, ⟨"department_list.csv", [2]⟩,
         ⟨"project_list.csv", [3]⟩, ⟨"random.csv", [4]⟩]).unrecognized_files.length
      = 1 ∧
    ∃ f, f ∈ [⟨"employee_list.csv", [1]⟩, ⟨"department_list.csv", [2]⟩,
         ⟨"project_list.csv", [3]⟩, (⟨"random.csv", [4]⟩ : UploadedFile)] ∧
      classifyFile
        [("employee", "employee"), ("department", "department"),
         ("project", "project")] f.name = some "project" ∧
      "uploads/project_project_list.csv" = savePath "uploads" "project" f.name := by
  constructor
  · rw [(unrecognized_reported_separately
        [("employee", "employee"), ("department", "department"),
         ("project", "project")] "uploads"
        [⟨"employee_list.csv", [1]⟩, ⟨"department_list.csv", [2]⟩,
         ⟨"project_list.csv", [3]⟩, ⟨"random.csv", [4]⟩]).1]
    decide
  · exact (unrecognized_reported_separately
        [("employee", "employee"), ("department", "department"),
         ("project", "project")] "uploads"
        [⟨"employee_list.csv", [1]⟩, ⟨"department_list.csv", [2]⟩,
         ⟨"project_list.csv", [3]⟩, ⟨"random.csv", [4]⟩]).2
      "project" "uploads/project_project_list.csv" (by decide)

/-- C9: Python dict assignment `files_dict[file_type] = save_path` makes later
files overwrite earlier ones classified to the same record type: the mapping
has pairwise-distinct keys (at most one file per record type), and the value
at key `k` is the save path of the last file of the batch classified as `k`. -/
theorem files_dict_last_write_wins (config : List (String × String))
    (folder : String) (files : List UploadedFile) :
    (dictKeys (processUploads config folder files).files_dict).Nodup ∧
    ∀ k, dictLookup k (processUploads config folder files).files_dict
        = ((files.filter
              (fun f => classifyFile config f.name == some k)).getLast?).map
            (fun f => savePath folder k f.name) := by
  constructor
  · exact processUploads_foldl_keys_nodup config folder files initialBatchState
      (by simp [initialBatchState, dictKeys])
  · intro k
    have h := processUploads_foldl_lookup config folder k files initialBatchState
    rw [processUploads, h]
    cases (files.filter (fun f => classifyFile config f.name == some k)).getLast?
      <;> rfl

/-- Witness for C9: two files both classified as `employee` — the mapping
keeps only the save path of the second. -/
theorem files_dict_last_write_wins_ex :
    dictLookup "employee"
        (processUploads [("employee", "employee")] "uploads"
          [⟨"employee_a.csv", [1]⟩, ⟨"employee_b.csv", [2]⟩]).files_dict
      = some "uploads/employee_employee_b.csv" :=
  ((files_dict_last_write_wins [("employee", "employee")] "uploads"
      [⟨"employee_a.csv", [1]⟩, ⟨"employee_b.csv", [2]⟩]).2 "employee").trans
    (by decide)

/-! ## Database pool (database.py)

`get_connection` and `get_cursor` are `contextmanager`s; their `with` bodies
become explicit body functions that may use the borrowed connection (updating
its transaction state) and either return a value (`Except.ok`) or raise
(`Except.error`). -/

/-- Transaction state of one connection: operations already committed to the
database, and operations pending in the open transaction. -/
structure TxnState where
  committed : List String
  pending : List String
deriving DecidableEq

/-- Embeds `conn.commit()` (line 61): pending operations become durable. -/
def TxnState.commit (t : TxnState) : TxnState := ⟨t.committed ++ t.pending, []⟩

/-- Embeds `conn.rollback()` (line 63): pending operations are discarded. -/
def TxnState.rollback (t : TxnState) : TxnState := ⟨t.committed, []⟩

/-- A pooled connection: its object identity and its transaction state. -/
structure Conn where
  id : Nat
  txn : TxnState
deriving DecidableEq

/-- The `SimpleConnectionPool`: free connections and connections handed out. -/
structure PoolState where
  available : List Conn
  inUse : List Conn
deriving DecidableEq

/-- Embeds `pool.getconn()` (line 45): hand out a free connection, or raise
(`PoolError`, modelled as `none`) when the pool is exhausted. -/
def getconn (p : PoolState) : Option (Conn × PoolState) :=
  match p.available with
  | [] => none
  | c :: rest => some (c, ⟨rest, c :: p.inUse⟩)

/-- Embeds `pool.putconn(conn)` (line 52): return a connection to the pool. -/
def putconn (c : Conn) (p : PoolState) : PoolState :=
  ⟨c :: p.available, p.inUse.eraseP (fun d => d.id == c.id)⟩

/-- Errors escaping the pool scopes: the body's own exception, re-raised by
the `except`/`raise` of lines 47-49 and 62-65, or the `getconn` failure. -/
inductive PoolErr (E : Type) where
  | poolExhausted : PoolErr E
  | bodyErr : E → PoolErr E

/-- Re-raising the body's exception through the scope. -/
def liftBody {E A : Type} : Except E A → Except (PoolErr E) A
  | Except.ok a => Except.ok a
  | Except.error e => Except.error (PoolErr.bodyErr e)

/-- Embeds `DatabasePool.get_connection` (lines 41-52): acquire a connection, run the
`with` body on it, and in the `finally` return the connection whenever one was
acquired (`if conn`). When `getconn` itself raises, `conn` is still `None`
and the `finally` returns nothing. The body's exception is re-raised. -/
def get_connection {E A : Type} (p : PoolState)
    (body : Conn → TxnState × Except E A) : PoolState × Except (PoolErr E) A :=
  match getconn p with
  | none => (p, Except.error PoolErr.poolExhausted)
  | some (c, p1) =>
      let r := body c
      (putconn ⟨c.id, r.1⟩ p1, liftBody r.2)

/-- Outcome of one run of the cursor scope on a connection. -/
structure CursorOutcome (E A : Type) where
  txn : TxnState
  result : Except E A
  cursorClosed : Bool

/-- The try/except/finally of `get_cursor` (lines 58-67) on one connection:
on success `conn.commit()`; on exception `conn.rollback()` and re-raise; the
`finally` closes the cursor on both paths. -/
def run_cursor_scope {E A : Type} (body : Conn → TxnState × Except E A)
    (c : Conn) : CursorOutcome E A :=
  let r := body c
  match r.2 with
  | Except.ok a => ⟨TxnState.commit r.1, Except.ok a, true⟩
  | Except.error e => ⟨TxnState.rollback r.1, Except.error e, true⟩

/-- Embeds `DatabasePool.get_cursor` (lines 54-67): the cursor scope run inside the
connection scope `with self.get_connection() as conn`. -/
def get_cursor {E A : Type} (p : PoolState)
    (body : Conn → TxnState × Except E A) : PoolState × Except (PoolErr E) A :=
  get_connection p (fun c =>
    let out := run_cursor_scope body c
    (out.txn, out.result))

theorem get_connection_cons {E A : Type} (c : Conn) (rest iu : List Conn)
    (body : Conn → TxnState × Except E A) :
    get_connection ⟨c :: rest, iu⟩ body
      = (⟨(⟨c.id, (body c).1⟩ : Conn) :: rest,
          (c :: iu).eraseP (fun d => d.id == c.id)⟩, liftBody (body c).2) := rfl

theorem erase_returned_conn (c : Conn) (iu : List Conn) :
    (c :: iu).eraseP (fun d => d.id == c.id) = iu := by
  rw [List.eraseP_cons]
  simp

/-- C4: for every body executed under the pool's cursor scope: completing
without raising commits the connection (pending operations appended to the
committed ones); raising rolls back (pending discarded, committed unchanged)
and the exception propagates to the caller of `get_cursor`; the cursor is
closed in both cases. -/
theorem cursor_scope_commit_rollback_close {E A : Type}
    (body : Conn → TxnState × Except E A) (c : Conn) :
    ((run_cursor_scope body c).cursorClosed = true) ∧
    (∀ t a, body c = (t, Except.ok a) →
      run_cursor_scope body c
        = ⟨⟨t.committed ++ t.pending, []⟩, Except.ok a, true⟩) ∧
    (∀ t e, body c = (t, Except.error e) →
      run_cursor_scope body c
        = ⟨⟨t.committed, []⟩, Except.error e, true⟩) ∧
    (∀ rest iu, (get_cursor ⟨c :: rest, iu⟩ body).2
        = liftBody (run_cursor_scope body c).result) := by
  refine ⟨?_, ?_, ?_, ?_⟩
  · rw [run_cursor_scope]
    cases (body c).2 <;> rfl
  · intro t a h
    rw [run_cursor_scope, h]
    rfl
  · intro t e h
    rw [run_cursor_scope, h]
    rfl
  · intro rest iu
    rfl

/-- Witness for C4: a body appending one pending operation and succeeding is
committed; the same body raising is rolled back, the error propagating; the
cursor is closed both times. -/
theorem cursor_scope_commit_rollback_close_ex :
    run_cursor_scope
        (fun c => (⟨c.txn.committed, c.txn.pending ++ ["ins"]⟩,
          (Except.ok 7 : Except String Nat)))
        ⟨0, ⟨["old"], []⟩⟩
      = ⟨⟨["old", "ins"], []⟩, Except.ok 7, true⟩ ∧
    run_cursor_scope
        (fun c => (⟨c.txn.committed, c.txn.pending ++ ["ins"]⟩,
          (Except.error "boom" : Except String Nat)))
        ⟨0, ⟨["old"], []⟩⟩
      = ⟨⟨["old"], []⟩, Except.error "boom", true⟩ := by
  constructor
  · exact (cursor_scope_commit_rollback_close
        (fun c => (⟨c.txn.committed, c.txn.pending ++ ["ins"]⟩,
          (Except.ok 7 : Except String Nat)))
        ⟨0, ⟨["old"], []⟩⟩).2.1 ⟨["old"], ["ins"]⟩ 7 rfl
  · exact (cursor_scope_commit_rollback_close
        (fun c => (⟨c.txn.committed, c.txn.pending ++ ["ins"]⟩,
          (Except.error "boom" : Except String Nat)))
        ⟨0, ⟨["old"], []⟩⟩).2.2.1 ⟨["old"], ["ins"]⟩ "boom" rfl

/-- C5: any connection acquired under `get_connection` is returned to the pool
on every exit path — body success, body exception (which propagates), and
when the acquisition itself fails nothing was acquired and the pool is
untouched. -/
theorem get_connection_releases_on_all_paths {E A : Type} (p : PoolState)
    (body : Conn → TxnState × Except E A) :
    (p.available = [] →
      get_connection p body = (p, Except.error PoolErr.poolExhausted)) ∧
    (∀ c rest, p.available = c :: rest →
      (get_connection p body).1
          = ⟨(⟨c.id, (body c).1⟩ : Conn) :: rest, p.inUse⟩ ∧
      (get_connection p body).2 = liftBody (body c).2) := by
  constructor
  · intro h
    cases p with
    | mk av iu =>
        simp only at h
        subst h
        rfl
  · intro c rest h
    cases p with
    | mk av iu =>
        simp only at h
        subst h
        rw [get_connection_cons]
        exact ⟨by rw [erase_returned_conn], rfl⟩

/-- Witness for C5: a pool with a single free connection, a body that raises —
the connection is back in the pool afterwards, with the in-use list unchanged,
and the body's error reaches the caller. -/
theorem get_connection_releases_on_all_paths_ex :
    (get_connection ⟨[⟨1, ⟨[], []⟩⟩], []⟩
        (fun c => (⟨c.txn.committed, ["op"]⟩,
          (Except.error "boom" : Except String Nat)))).1
      = ⟨[⟨1, ⟨[], ["op"]⟩⟩], []⟩ ∧
    (get_connection ⟨[⟨1, ⟨[], []⟩⟩], []⟩
        (fun c => (⟨c.txn.committed, ["op"]⟩,
          (Except.error "boom" : Except String Nat)))).2
      = Except.error (PoolErr.bodyErr "boom") :=
  ((get_connection_releases_on_all_paths ⟨[⟨1, ⟨[], []⟩⟩], []⟩
      (fun c => (⟨c.txn.committed, ["op"]⟩,
        (Except.error "boom" : Except String Nat)))).2
    ⟨1, ⟨[], []⟩⟩ [] rfl)

/-- Class-level state of `DatabasePool` (database.py lines 12-21): the
`_instance` class attribute (object identity of the stored singleton, `none`
for Python `None`) and how many times `_initialize_pool` has run. -/
structure DatabasePoolClass where
  inst : Option Nat
  initCount : Nat
deriving DecidableEq

/-- State at module import, before any `DatabasePool()` call:
`_instance = None`, the underlying pool never initialized. -/
def initialPoolClass : DatabasePoolClass := ⟨none, 0⟩

/-- Embeds `DatabasePool.__new__` (lines 17-21): on first call allocate the instance
(identity `initCount`, i.e. `0` from the pristine state) and run
`_initialize_pool`; on every later call return the stored `_instance`. -/
def DatabasePool_new (cs : DatabasePoolClass) : DatabasePoolClass × Nat :=
  match cs.inst with
  | some i => (cs, i)
  | none => (⟨some cs.initCount, cs.initCount + 1⟩, cs.initCount)

/-- Runs `n` successive constructions `DatabasePool()` starting at module import,
returning the final class state and the instances produced, in order. -/
def constructN : Nat → DatabasePoolClass × List Nat
  | 0 => (initialPoolClass, [])
  | n + 1 =>
      let r := constructN n
      let s := DatabasePool_new r.1
      (s.1, r.2 ++ [s.2])

theorem constructN_succ (m : Nat) :
    constructN (m + 1)
      = ((DatabasePool_new (constructN m).1).1,
         (constructN m).2 ++ [(DatabasePool_new (constructN m).1).2]) := rfl

theorem constructN_state (m : Nat) (h : 1 ≤ m) :
    (constructN m).1 = ⟨some 0, 1⟩ := by
  induction m with
  | zero => exact absurd h (by decide)
  | succ n ih =>
      rcases Nat.eq_zero_or_pos n with h0 | hpos
      · subst h0; rfl
      · rw [constructN_succ]
        simp only
        rw [ih hpos]
        rfl

/-- C8: the pool is a lazily initialized singleton — before any construction
the underlying pool is uninitialized; after any positive number of
constructions `_initialize_pool` has run exactly once; and every construction
has returned the same instance (identity `0`). -/
theorem database_pool_singleton (n : Nat) :
    (constructN 0).1.initCount = 0 ∧
    (1 ≤ n → (constructN n).1.initCount = 1) ∧
    (∀ i ∈ (constructN n).2, i = 0) := by
  refine ⟨rfl, ?_, ?_⟩
  · intro h
    rw [constructN_state n h]
  · induction n with
    | zero => intro i h; cases h
    | succ m ih =>
        intro i h
        rw [constructN_succ] at h
        rcases List.mem_append.mp h with h | h
        · exact ih i h
        · rw [List.mem_singleton] at h
          subst h
          rcases Nat.eq_zero_or_pos m with h0 | hpos
          · subst h0; rfl
          · rw [constructN_state m hpos]
            rfl

/-- Witness for C8: three consecutive constructions yield one initialization
and the same instance three times. -/
theorem database_pool_singleton_ex :
    (constructN 3).1.initCount = 1 ∧ (constructN 3).2 = [0, 0, 0] := by
  refine ⟨(database_pool_singleton 3).2.1 (by decide), ?_⟩
  decide

/-! ## Activity logger (activity_logger.py) -/

/-- One row of the `system_logs` table (`SystemLog`); `details` keeps the
key/value pairs handed to `log_event` (their JSON serialization abstracted). -/
structure SystemLogEntry where
  event_type : String
  user : Option String
  description : String
  details : Option (List (String × Int))
deriving DecidableEq

/-- State of one `ActivityLogger`: whether `__init__` succeeded in building
`self.Session` (on an init failure lines 61-64 leave it `None`), and the rows
of `system_logs`. -/
structure LoggerState where
  sessionInit : Bool
  logs : List SystemLogEntry
deriving DecidableEq

/-- Embeds `ActivityLogger.log_event` (lines 73-105). The surrounding `try`/`except`
turns any internal error into the return value `False` instead of raising,
which the embedding reflects by a total function into `Bool`; `dbFail` is the
oracle for such an internal error (details serialization or the session
add/commit raising).  `Session is None` (lines 77-79) also returns `False`. -/
def log_event (st : LoggerState) (dbFail : Bool) (event_type description : String)
    (user : Option String) (details : Option (List (String × Int))) :
    LoggerState × Bool :=
  if st.sessionInit = false then (st, false)
  else if dbFail then (st, false)
  else ({ st with logs := st.logs ++ [⟨event_type, user, description, details⟩] },
        true)

/-- Embeds `ActivityLogger.log_file_upload` (lines 107-111). -/
def log_file_upload (st : LoggerState) (dbFail : Bool)
    (filename file_type : String) (user : Option String) (status : String)
    (details : Option (List (String × Int))) : LoggerState × Bool :=
  log_event st dbFail "FILE_UPLOAD"
    ("File upload: " ++ filename ++ " (" ++ file_type ++ ") - " ++ status)
    user details

/-- Embeds `ActivityLogger.log_file_processing` (lines 113-123). -/
def log_file_processing (st : LoggerState) (dbFail : Bool) (filename : String)
    (records_processed records_success records_failed : Int)
    (user : Option String) : LoggerState × Bool :=
  log_event st dbFail "FILE_PROCESSING" ("File processed: " ++ filename) user
    (some [("records_processed", records_processed),
           ("records_success", records_success),
           ("records_failed", records_failed)])

/-- C6: activity logging never propagates failures — `log_event` is total:
it either records exactly the event and returns `true`, or returns `false`
with the state unchanged; an uninitialized session always yields `false`; and
`log_file_upload` / `log_file_processing` are `log_event` on derived
arguments, so they inherit this behaviour. -/
theorem log_event_best_effort (st : LoggerState) (dbFail : Bool)
    (et d : String) (u : Option String) (dt : Option (List (String × Int))) :
    ((log_event st dbFail et d u dt).2 = true ∧
       (log_event st dbFail et d u dt).1
         = ⟨st.sessionInit, st.logs ++ [⟨et, u, d, dt⟩]⟩
     ∨ (log_event st dbFail et d u dt).2 = false ∧
       (log_event st dbFail et d u dt).1 = st) ∧
    (st.sessionInit = false → (log_event st dbFail et d u dt).2 = false) ∧
    (∀ fn ft status,
      log_file_upload st dbFail fn ft u status dt
        = log_event st dbFail "FILE_UPLOAD"
            ("File upload: " ++ fn ++ " (" ++ ft ++ ") - " ++ status) u dt) ∧
    (∀ fn rp rs rf,
      log_file_processing st dbFail fn rp rs rf u
        = log_event st dbFail "FILE_PROCESSING" ("File processed: " ++ fn) u
            (some [("records_processed", rp), ("records_success", rs),
                   ("records_failed", rf)])) := by
  obtain ⟨si, lg⟩ := st
  refine ⟨?_, ?_, fun fn ft status => rfl, fun fn rp rs rf => rfl⟩
  · by_cases h1 : si = false
    · right
      simp [log_event, h1]
    · by_cases h2 : dbFail
      · right
        simp [log_event, h1, h2]
      · left
        simp [log_event, h1, h2]
  · intro h
    simp only at h
    simp [log_event, h]

/-- Witness for C6: with an uninitialized session the call reports `false`
(and raises nothing — it is a value, not an exception). -/
theorem log_event_best_effort_ex :
    (log_event ⟨false, []⟩ false "FILE_UPLOAD" "File upload: a.csv" none
        none).2 = false :=
  (log_event_best_effort ⟨false, []⟩ false "FILE_UPLOAD" "File upload: a.csv"
      none none).2.1 rfl

/-- An `ActivityLogger` instance, identified by the `engine` argument captured
at construction (`none` for a logger that builds its own engine from the
environment). -/
structure ActivityLoggerInst where
  engine : Option String
deriving DecidableEq

/-- Module-level `get_logger` (activity_logger.py lines 237-244): construct
the global `_activity_logger` on first call, afterwards return it unchanged,
ignoring the `engine` argument.  First component: the new value of the
global; second: the returned instance. -/
def get_logger (g : Option ActivityLoggerInst) (engine : Option String) :
    Option ActivityLoggerInst × ActivityLoggerInst :=
  match g with
  | some l => (some l, l)
  | none => (some ⟨engine⟩, ⟨engine⟩)

/-- A sequence of `get_logger` calls with the given engine arguments,
returning the final global and the instances returned, in order. -/
def get_logger_seq (g : Option ActivityLoggerInst) :
    List (Option String) → Option ActivityLoggerInst × List ActivityLoggerInst
  | [] => (g, [])
  | e :: es =>
      let r := get_logger g e
      let s := get_logger_seq r.1 es
      (s.1, r.2 :: s.2)

theorem get_logger_seq_some (l : ActivityLoggerInst)
    (es : List (Option String)) :
    get_logger_seq (some l) es = (some l, List.replicate es.length l) := by
  induction es with
  | nil => rfl
  | cons e es ih => simp [get_logger_seq, get_logger, ih, List.replicate_succ]

/-- C10: `get_logger` memoizes — starting from an unset global, the first
call constructs the logger with its engine argument, and every later call of
the sequence returns that same instance whatever its own engine argument. -/
theorem get_logger_memoizes (e : Option String) (es : List (Option String)) :
    get_logger_seq none (e :: es)
      = (some ⟨e⟩, List.replicate (es.length + 1) ⟨e⟩) := by
  simp [get_logger_seq, get_logger, get_logger_seq_some, List.replicate_succ]

/-- Witness for C10: three calls with three different engine arguments all
return the instance built from the first argument. -/
theorem get_logger_memoizes_ex :
    get_logger_seq none [some "engine0", some "engine1", none]
      = (some ⟨some "engine0"⟩,
         [⟨some "engine0"⟩, ⟨some "engine0"⟩, ⟨some "engine0"⟩]) :=
  (get_logger_memoizes (some "engine0") [some "engine1", none]).trans (by decide)

/-! ## Run Ledger (spec §4.5, §8) -/

/-- One `UploadLog` row (`csv_upload_log`): counts and status for one
ingested file. -/
structure UploadLogRow where
  upload_id : Nat
  file_type : String
  status : String
  records_processed : Nat
  records_success : Nat
  records_failed : Nat
deriving DecidableEq

/-- Pipeline outcome for one submitted file, following spec §4.2-§4.4: a
malformed file never reaches per-row validation; an ingested file yields a
per-row accept/reject outcome (`true` = loaded, `false` = rejected); a load
transaction failure rolls back the whole file of `n` processed rows. -/
inductive FileOutcome where
  | malformed : FileOutcome
  | loaded : List Bool → FileOutcome
  | loadFailed : Nat → FileOutcome
deriving DecidableEq

/-- Modelled from the spec: the Run Ledger write (§4.5) performed by the ETL
pipeline, whose module (`etl.py`) is not among the sources here — only its
logging collaborator `ActivityLogger.log_file_processing` is.  Per §4.2, a
malformed file is recorded as failed with zero processed records; per §4.6,
an ingested file's counts are finalized from its per-row outcomes; per §4.4,
a rolled-back file is recorded as failed with `records_success = 0` and
`records_failed = records_processed`. -/
def mkUploadLogRow (uid : Nat) (ftype : String) : FileOutcome → UploadLogRow
  | FileOutcome.malformed => ⟨uid, ftype, "failed", 0, 0, 0⟩
  | FileOutcome.loaded rows =>
      ⟨uid, ftype,
       if rows.count false = 0 then "success"
       else if rows.count true = 0 then "failed" else "partial",
       rows.length, rows.count true, rows.count false⟩
  | FileOutcome.loadFailed n => ⟨uid, ftype, "failed", n, 0, n⟩

/-- Modelled from the spec: exactly one ledger row per submitted file
(§4.5), appended over the batch. -/
def runLedger (files : List (Nat × String × FileOutcome)) : List UploadLogRow :=
  files.map (fun f => mkUploadLogRow f.1 f.2.1 f.2.2)

theorem count_true_add_count_false (rows : List Bool) :
    rows.count true + rows.count false = rows.length := by
  induction rows with
  | nil => rfl
  | cons b bs ih =>
      cases b <;> simp [List.count_cons] <;> omega

/-- C3: every `UploadLog` row ever written satisfies
`records_processed = records_success + records_failed`. -/
theorem upload_log_counts_invariant (files : List (Nat × String × FileOutcome)) :
    ∀ row ∈ runLedger files,
      row.records_processed = row.records_success + row.records_failed := by
  intro row hrow
  rw [runLedger] at hrow
  rcases List.mem_map.mp hrow with ⟨f, hf, hrow2⟩
  obtain ⟨uid, ftype, outcome⟩ := f
  subst hrow2
  cases outcome with
  | malformed => rfl
  | loaded rows =>
      show rows.length = rows.count true + rows.count false
      exact (count_true_add_count_false rows).symm
  | loadFailed n =>
      show n = 0 + n
      exact (Nat.zero_add n).symm

/-- Witness for C3: the row of a file with two loaded rows and one rejected
row satisfies the counts invariant. -/
theorem upload_log_counts_invariant_ex :
    (mkUploadLogRow 1 "employee"
        (FileOutcome.loaded [true, true, false])).records_processed
      = (mkUploadLogRow 1 "employee"
          (FileOutcome.loaded [true, true, false])).records_success
        + (mkUploadLogRow 1 "employee"
            (FileOutcome.loaded [true, true, false])).records_failed :=
  upload_log_counts_invariant
    [(1, "employee", FileOutcome.loaded [true, true, false])]
    (mkUploadLogRow 1 "employee" (FileOutcome.loaded [true, true, false]))
    (by decide)
